import Mathlib

/-!
Verification of the iMessageWrapped statistics engine.

Shallow embedding of the statistics core of the repository
(`Backend/stats/*.py`, `Backend/Conversation.py`, `Backend/Message.py`,
`Backend/iMessage.py`, `Backend/MessagesWrapped.py`) together with proofs
about the embedded definitions.

Conventions of the embedding:
* Python `dict`s become insertion-ordered association lists
  (`List (κ × α)`); `defaultdict` lookups become lookups with a default.
* Python `datetime.date` becomes `PyDate` (year/month/day as `Nat`,
  proleptic Gregorian, valid years are `1 ≤ year` as in Python);
  `datetime.datetime` becomes `PyDateTime` at minute resolution (all
  quantities the statistics record are minute differences; the Python
  code divides `total_seconds()` by 60, which on minute-resolution
  inputs is the same integer value, represented exactly in `ℚ` here
  where Python uses a float).
* Python `None` senders are `Option String` with `none` for `None`.
* Logging statements and log-only state (`last_message_text`,
  `current_streak_start_text`, the `logger` object) have no effect on
  any recorded statistic and are omitted from the state.
-/

/-! ## Calendar arithmetic

Python's `datetime.date` with `timedelta` arithmetic, `weekday()` and
ordering.  `PyDate.toDays` is the day number counting from 0000-03-01
(proleptic Gregorian, era-based civil algorithm; CPython's `toordinal`
is the same function up to an additive constant).  `date - timedelta(n)`
is embedded as `n` single-day calendar decrements, and
`toDays_subDays` below proves this agrees with CPython's ordinal
subtraction on valid dates.
-/

structure PyDate where
  year : Nat
  month : Nat
  day : Nat
deriving DecidableEq, Repr

def leapYear (y : Nat) : Bool := (y % 4 = 0 && y % 100 != 0) || y % 400 = 0

theorem leapYear_iff (y : Nat) :
    leapYear y = true ↔ ((y % 4 = 0 ∧ y % 100 ≠ 0) ∨ y % 400 = 0) := by
  unfold leapYear
  simp [Bool.or_eq_true, Bool.and_eq_true, decide_eq_true_eq, bne_iff_ne]

def daysInMonth (y m : Nat) : Nat :=
  if m = 2 then (if leapYear y then 29 else 28)
  else if m = 4 ∨ m = 6 ∨ m = 9 ∨ m = 11 then 30
  else 31

theorem daysInMonth_bounds (y m : Nat) :
    28 ≤ daysInMonth y m ∧ daysInMonth y m ≤ 31 := by
  unfold daysInMonth
  split
  · split <;> omega
  · split <;> omega

theorem daysInMonth_two (y : Nat) :
    (((y % 4 = 0 ∧ y % 100 ≠ 0) ∨ y % 400 = 0) ∧ daysInMonth y 2 = 29) ∨
      (¬ ((y % 4 = 0 ∧ y % 100 ≠ 0) ∨ y % 400 = 0) ∧ daysInMonth y 2 = 28) := by
  by_cases hl : leapYear y = true
  · exact Or.inl ⟨(leapYear_iff y).mp hl, by unfold daysInMonth; simp [hl]⟩
  · have hl2 : leapYear y = false := by revert hl; cases leapYear y <;> simp
    refine Or.inr ⟨fun hc => hl ((leapYear_iff y).mpr hc), ?_⟩
    unfold daysInMonth
    simp [hl2]

theorem daysInMonth_ne_two (y m : Nat) (h : m ≠ 2) :
    daysInMonth y m = if m = 4 ∨ m = 6 ∨ m = 9 ∨ m = 11 then 30 else 31 := by
  unfold daysInMonth
  rw [if_neg h]

/-- A `datetime.date` Python can represent (`datetime.MINYEAR = 1`). -/
def ValidDate (d : PyDate) : Prop :=
  1 ≤ d.year ∧ 1 ≤ d.month ∧ d.month ≤ 12 ∧ 1 ≤ d.day ∧ d.day ≤ daysInMonth d.year d.month

instance : DecidablePred ValidDate := fun d => by unfold ValidDate; infer_instance

/-- Day number of a date, counting from 0000-03-01 (era-based algorithm). -/
def PyDate.toDays (dt : PyDate) : Nat :=
  ((dt.year - (if dt.month ≤ 2 then 1 else 0)) / 400) * 146097 +
    (((dt.year - (if dt.month ≤ 2 then 1 else 0)) % 400) * 365 +
      ((dt.year - (if dt.month ≤ 2 then 1 else 0)) % 400) / 4 -
      ((dt.year - (if dt.month ≤ 2 then 1 else 0)) % 400) / 100 +
      ((153 * ((dt.month + 9) % 12) + 2) / 5 + (dt.day - 1)))

/-- Python `date.weekday()`: Monday = 0 … Sunday = 6 (0000-03-01 was a
Wednesday, hence the offset 2). -/
def PyDate.weekday (dt : PyDate) : Nat := (dt.toDays + 2) % 7

/-- One calendar day earlier (borrowing from the previous month/year). -/
def PyDate.prevDay (dt : PyDate) : PyDate :=
  if 1 < dt.day then ⟨dt.year, dt.month, dt.day - 1⟩
  else if 1 < dt.month then ⟨dt.year, dt.month - 1, daysInMonth dt.year (dt.month - 1)⟩
  else ⟨dt.year - 1, 12, 31⟩

/-- Embeds `date - timedelta(days := n)`, as `n` single-day decrements. -/
def PyDate.subDays (dt : PyDate) : Nat → PyDate
  | 0 => dt
  | n + 1 => (dt.prevDay).subDays n

/-- Python `date` comparison (lexicographic on year, month, day). -/
def PyDate.lt (a b : PyDate) : Bool :=
  a.year < b.year ∨ (a.year = b.year ∧
    (a.month < b.month ∨ (a.month = b.month ∧ a.day < b.day)))

def PyDate.le (a b : PyDate) : Bool := a = b || PyDate.lt a b

theorem validDate_mk {y m d : Nat} :
    ValidDate ⟨y, m, d⟩ ↔ 1 ≤ y ∧ 1 ≤ m ∧ m ≤ 12 ∧ 1 ≤ d ∧ d ≤ daysInMonth y m :=
  Iff.rfl

theorem toDays_mk (y m d : Nat) :
    PyDate.toDays ⟨y, m, d⟩ = ((y - (if m ≤ 2 then 1 else 0)) / 400) * 146097 +
      (((y - (if m ≤ 2 then 1 else 0)) % 400) * 365 +
        ((y - (if m ≤ 2 then 1 else 0)) % 400) / 4 -
        ((y - (if m ≤ 2 then 1 else 0)) % 400) / 100 +
        ((153 * ((m + 9) % 12) + 2) / 5 + (d - 1))) :=
  rfl

theorem toDays_min (dt : PyDate) (h : ValidDate dt) : 306 ≤ dt.toDays := by
  obtain ⟨y, m, d⟩ := dt
  obtain ⟨hy, hm1, hm2, hd1, _⟩ := validDate_mk.mp h
  rw [toDays_mk]
  rcases le_or_lt m 2 with hc | hc
  · rw [if_pos hc]; omega
  · rw [if_neg (by omega)]; omega

theorem toDays_prevDay (dt : PyDate) (h : ValidDate dt) (hne : dt ≠ ⟨1, 1, 1⟩) :
    dt.prevDay.toDays + 1 = dt.toDays ∧ ValidDate dt.prevDay := by
  obtain ⟨y, m, d⟩ := dt
  obtain ⟨hy, hm1, hm2, hd1, hd2⟩ := validDate_mk.mp h
  unfold PyDate.prevDay
  simp only
  rcases Nat.lt_or_ge 1 d with hd | hd
  · -- same month, previous day
    rw [if_pos hd]
    refine ⟨?_, validDate_mk.mpr ⟨hy, hm1, hm2, by omega, by omega⟩⟩
    rw [toDays_mk, toDays_mk]
    omega
  · have hd1' : d = 1 := by omega
    subst hd1'
    rcases Nat.lt_or_ge 1 m with hm | hm
    · -- first of a month other than January: last day of previous month
      rw [if_neg (by omega), if_pos hm]
      have hdim := daysInMonth_bounds y (m - 1)
      refine ⟨?_, validDate_mk.mpr ⟨hy, by omega, by omega, by omega, le_refl _⟩⟩
      rw [toDays_mk, toDays_mk]
      interval_cases m
      · -- February 1 → January 31
        rw [daysInMonth_ne_two y 1 (by omega)]; norm_num; try omega
      · -- March 1 → last of February (crosses the computational year)
        rcases daysInMonth_two y with ⟨hp, he⟩ | ⟨hp, he⟩ <;> rw [he] <;> norm_num <;> omega
      · rw [daysInMonth_ne_two y 3 (by omega)]; norm_num; try omega
      · rw [daysInMonth_ne_two y 4 (by omega)]; norm_num; try omega
      · rw [daysInMonth_ne_two y 5 (by omega)]; norm_num; try omega
      · rw [daysInMonth_ne_two y 6 (by omega)]; norm_num; try omega
      · rw [daysInMonth_ne_two y 7 (by omega)]; norm_num; try omega
      · rw [daysInMonth_ne_two y 8 (by omega)]; norm_num; try omega
      · rw [daysInMonth_ne_two y 9 (by omega)]; norm_num; try omega
      · rw [daysInMonth_ne_two y 10 (by omega)]; norm_num; try omega
      · rw [daysInMonth_ne_two y 11 (by omega)]; norm_num; try omega
    · -- January 1 → December 31 of the previous year
      have hm1' : m = 1 := by omega
      subst hm1'
      have hy2 : 2 ≤ y := by
        rcases Nat.eq_or_lt_of_le hy with h1 | h1
        · exact absurd (by rw [← h1]) hne
        · omega
      rw [if_neg (by omega), if_neg (by omega)]
      refine ⟨?_, validDate_mk.mpr
        ⟨by omega, by omega, by omega, by omega,
          by rw [daysInMonth_ne_two (y - 1) 12 (by omega)]; norm_num⟩⟩
      rw [toDays_mk, toDays_mk]
      norm_num
      omega

theorem toDays_subDays (dt : PyDate) (n : Nat) (h : ValidDate dt)
    (hn : n + 306 ≤ dt.toDays) :
    (dt.subDays n).toDays + n = dt.toDays ∧ ValidDate (dt.subDays n) := by
  induction n generalizing dt with
  | zero =>
    refine ⟨?_, ?_⟩
    · simp [PyDate.subDays]
    · simpa [PyDate.subDays] using h
  | succ k ih =>
    have hne : dt ≠ ⟨1, 1, 1⟩ := by
      intro he
      rw [he] at hn
      have : PyDate.toDays ⟨1, 1, 1⟩ = 306 := by rw [toDays_mk]; norm_num
      omega
    obtain ⟨hstep, hval⟩ := toDays_prevDay dt h hne
    have hrec := ih dt.prevDay hval (by omega)
    have hun : dt.subDays (k + 1) = dt.prevDay.subDays k := by simp [PyDate.subDays]
    rw [hun]
    exact ⟨by omega, hrec.2⟩

/-! ## Association lists (Python `dict` / `defaultdict`) -/

/-- Lookup with a default (`defaultdict` read, or `dict.get(k, d)`). -/
def lookupD {κ α : Type} [DecidableEq κ] : List (κ × α) → κ → α → α
  | [], _, d => d
  | (k2, v) :: rest, k, d => if k2 = k then v else lookupD rest k d

/-- Python `k in dict`. -/
def containsKey {κ α : Type} [DecidableEq κ] : List (κ × α) → κ → Bool
  | [], _ => false
  | (k2, _) :: rest, k => k2 = k || containsKey rest k

/-- Embeds `dict[k] = f(dict.get(k, d))`; a new key is appended at the end,
matching Python's insertion order. -/
def upsert {κ α : Type} [DecidableEq κ] : List (κ × α) → κ → (α → α) → α → List (κ × α)
  | [], k, f, d => [(k, f d)]
  | (k2, v) :: rest, k, f, d =>
    if k2 = k then (k2, f v) :: rest else (k2, v) :: upsert rest k f d

/-- Update an existing key in place (no effect when absent). -/
def adjust {κ α : Type} [DecidableEq κ] : List (κ × α) → κ → (α → α) → List (κ × α)
  | [], _, _ => []
  | (k2, v) :: rest, k, f =>
    if k2 = k then (k2, f v) :: rest else (k2, v) :: adjust rest k f

/-- Two-level `defaultdict(lambda: defaultdict(...))` write. -/
def upsert2 {κ1 κ2 α : Type} [DecidableEq κ1] [DecidableEq κ2]
    (l : List (κ1 × List (κ2 × α))) (k1 : κ1) (k2 : κ2) (f : α → α) (d : α) :
    List (κ1 × List (κ2 × α)) :=
  upsert l k1 (fun inner => upsert inner k2 f d) []

/-- Two-level lookup with a default. -/
def lookup2D {κ1 κ2 α : Type} [DecidableEq κ1] [DecidableEq κ2]
    (l : List (κ1 × List (κ2 × α))) (k1 : κ1) (k2 : κ2) (d : α) : α :=
  lookupD (lookupD l k1 []) k2 d

theorem lookupD_upsert {κ α : Type} [DecidableEq κ]
    (l : List (κ × α)) (k k2 : κ) (f : α → α) (d : α) :
    lookupD (upsert l k f d) k2 d =
      if k = k2 then f (lookupD l k2 d) else lookupD l k2 d := by
  induction l with
  | nil =>
    by_cases h : k = k2 <;> simp [upsert, lookupD, h]
  | cons hd tl ih =>
    obtain ⟨ka, va⟩ := hd
    by_cases h1 : ka = k
    · subst h1
      by_cases h2 : ka = k2 <;> simp [upsert, lookupD, h2]
    · by_cases h2 : ka = k2
      · subst h2
        have : ¬ k = ka := fun h => h1 h.symm
        simp [upsert, lookupD, h1, this]
      · simp [upsert, lookupD, h1, h2, ih]

/-- Sum, over the entries of an association list, of the values whose key
maps to `k` under `g`. -/
def sumAtKey {κ' κ : Type} [DecidableEq κ] (g : κ' → κ)
    (rows : List (κ' × Nat)) (k : κ) : Nat :=
  rows.foldr (fun pr a => if g pr.1 = k then pr.2 + a else a) 0

theorem sumAtKey_upsert {κ' κ : Type} [DecidableEq κ'] [DecidableEq κ]
    (g : κ' → κ) (l : List (κ' × Nat)) (key : κ') (c : Nat) (k : κ) :
    sumAtKey g (upsert l key (· + c) 0) k =
      sumAtKey g l k + (if g key = k then c else 0) := by
  induction l with
  | nil => by_cases h : g key = k <;> simp [upsert, sumAtKey, h]
  | cons hd tl ih =>
    obtain ⟨ka, va⟩ := hd
    simp only [upsert]
    by_cases h1 : ka = key
    · rw [if_pos h1]
      subst h1
      simp only [sumAtKey, List.foldr_cons]
      split_ifs <;> omega
    · rw [if_neg h1]
      simp only [sumAtKey, List.foldr_cons] at ih ⊢
      rw [ih]
      split_ifs <;> omega

/-- Summing counts into buckets keyed by `g`, starting from `acc`
(the shape of every `aggregated[key] += count` loop in the source). -/
def foldAdd {κ' κ : Type} [DecidableEq κ] (g : κ' → κ)
    (rows : List (κ' × Nat)) (acc : List (κ × Nat)) : List (κ × Nat) :=
  rows.foldl (fun a pr => upsert a (g pr.1) (· + pr.2) 0) acc

theorem lookupD_foldAdd {κ' κ : Type} [DecidableEq κ] (g : κ' → κ)
    (rows : List (κ' × Nat)) (acc : List (κ × Nat)) (k : κ) :
    lookupD (foldAdd g rows acc) k 0 = lookupD acc k 0 + sumAtKey g rows k := by
  induction rows generalizing acc with
  | nil => simp [foldAdd, sumAtKey]
  | cons hd tl ih =>
    obtain ⟨ka, va⟩ := hd
    simp only [foldAdd, List.foldl_cons]
    have h1 := ih (upsert acc (g ka) (· + va) 0)
    simp only [foldAdd] at h1
    rw [h1, lookupD_upsert]
    simp only [sumAtKey, List.foldr_cons]
    split_ifs <;> omega

theorem sumAtKey_foldAdd {κ' κ : Type} [DecidableEq κ'] [DecidableEq κ] (g : κ' → κ)
    (rows : List (κ' × Nat)) (acc : List (κ' × Nat)) (k : κ) :
    sumAtKey g (foldAdd id rows acc) k = sumAtKey g acc k + sumAtKey g rows k := by
  induction rows generalizing acc with
  | nil => simp [foldAdd, sumAtKey]
  | cons hd tl ih =>
    obtain ⟨ka, va⟩ := hd
    simp only [foldAdd, List.foldl_cons, id_eq]
    have h1 := ih (upsert acc ka (· + va) 0)
    simp only [foldAdd, id_eq] at h1
    rw [h1, sumAtKey_upsert]
    simp only [sumAtKey, List.foldr_cons]
    split_ifs <;> omega

/-! ## Datetimes, periods and bucket keys (`BaseStatistic._get_period_key`) -/

structure PyDateTime where
  date : PyDate
  hour : Nat
  minute : Nat
deriving DecidableEq, Repr

def PyDateTime.toMinutes (t : PyDateTime) : Nat :=
  (t.date.toDays * 24 + t.hour) * 60 + t.minute

/-- Python `datetime` comparison (lexicographic, chronological). -/
def PyDateTime.ltb (a b : PyDateTime) : Bool :=
  PyDate.lt a.date b.date ||
    (a.date = b.date && (decide (a.hour < b.hour) ||
      (a.hour = b.hour && decide (a.minute < b.minute))))

/-- Embeds `(b - a).total_seconds() / 60`: the minute difference (an exact
integer on minute-resolution datetimes), as a rational. -/
def diffMinutes (a b : PyDateTime) : ℚ :=
  (((b.toMinutes : Int) - (a.toMinutes : Int) : Int) : ℚ)

/-- Embeds `datetime.combine(date, time(hour=hour))`. -/
def combineKey (date : PyDate) (hour : Nat) : PyDateTime := ⟨date, hour, 0⟩

inductive Period
  | hour
  | day
  | week
  | month
  | year
deriving DecidableEq, Repr

/-- A bucket key: `_get_period_key` returns a `datetime` for hour granularity and a
`date` for the other granularities. -/
inductive PeriodKey
  | hourKey (d : PyDate) (h : Nat)
  | dateKey (d : PyDate)
deriving DecidableEq, Repr

def PeriodKey.ltb (a b : PeriodKey) : Bool :=
  match a, b with
  | .dateKey x, .dateKey y => PyDate.lt x y
  | .hourKey x hx, .hourKey y hy => PyDate.lt x y || (x = y && decide (hx < hy))
  | .dateKey _, .hourKey _ _ => true
  | .hourKey _ _, .dateKey _ => false

def keyLE (a b : PeriodKey) : Prop := PeriodKey.ltb a b = true ∨ a = b

instance : DecidableRel keyLE := fun a b => by unfold keyLE; infer_instance

/-- The body of `BaseStatistic._get_period_key` for each valid period. -/
def periodKeyOf (dt : PyDateTime) : Period → PeriodKey
  | .hour => .hourKey dt.date dt.hour                     -- dt.replace(minute=0, …)
  | .day => .dateKey dt.date                              -- dt.date()
  | .week => .dateKey (dt.date.subDays dt.date.weekday)   -- date - timedelta(days=date.weekday())
  | .month => .dateKey ⟨dt.date.year, dt.date.month, 1⟩   -- dt.date().replace(day=1)
  | .year => .dateKey ⟨dt.date.year, 1, 1⟩                -- dt.date().replace(month=1, day=1)

def parsePeriod (s : String) : Option Period :=
  if s = "hour" then some .hour
  else if s = "day" then some .day
  else if s = "week" then some .week
  else if s = "month" then some .month
  else if s = "year" then some .year
  else none

/-- Embeds `BaseStatistic._get_period_key`: raises `ValueError` on any other string. -/
def getPeriodKey (dt : PyDateTime) (period : String) : Except String PeriodKey :=
  match parsePeriod period with
  | some p => .ok (periodKeyOf dt p)
  | none => .error ("Invalid period: " ++ period ++
      ". Use hour, day, week, month, or year.")

/-! ## `BaseStatistic` state and queries -/

structure BaseStat where
  timeline : List (PyDateTime × Nat)
  timelineBySender : List (Option String × List (PyDateTime × Nat))
  byHour : List (Nat × Nat)
  byHourBySender : List (Option String × List (Nat × Nat))
deriving DecidableEq, Repr

def BaseStat.empty : BaseStat := ⟨[], [], [], []⟩

/-- Embeds `BaseStatistic._record_base`. -/
def BaseStat.recordBase (st : BaseStat) (sender : Option String)
    (date : PyDate) (hour : Nat) : BaseStat :=
  let datetimeKey := combineKey date hour
  { timeline := upsert st.timeline datetimeKey (· + 1) 0
    timelineBySender := upsert2 st.timelineBySender sender datetimeKey (· + 1) 0
    byHour := upsert st.byHour hour (· + 1) 0
    byHourBySender := upsert2 st.byHourBySender sender hour (· + 1) 0 }

structure TimelineOut where
  dates : List PeriodKey
  counts : List Nat
deriving DecidableEq, Repr

structure ByHourOut where
  hours : List Nat
  counts : List Nat
deriving DecidableEq, Repr

/-- Embeds `sorted(aggregated.items())` on bucket keys. -/
def sortPairs (l : List (PeriodKey × Nat)) : List (PeriodKey × Nat) :=
  List.insertionSort (fun a b => keyLE a.1 b.1) l

/-- The `aggregated[key] += count` loop of `get_timeline`. -/
def aggregateCounts (data : List (PyDateTime × Nat)) (p : Period) :
    List (PeriodKey × Nat) :=
  foldAdd (fun dt => periodKeyOf dt p) data []

/-- Embeds `BaseStatistic.get_timeline` (an absent sender yields the empty
result, exactly as the `not in` guard in the source does). -/
def BaseStat.getTimeline (st : BaseStat) (senderNumber : Option String)
    (p : Period) : TimelineOut :=
  let data := match senderNumber with
    | some _ => lookupD st.timelineBySender senderNumber []
    | none => st.timeline
  let srt := sortPairs (aggregateCounts data p)
  ⟨srt.map (·.1), srt.map (·.2)⟩

/-- Embeds `BaseStatistic.get_by_hour`: all 24 hours, zero-filled. -/
def BaseStat.getByHour (st : BaseStat) (senderNumber : Option String) : ByHourOut :=
  let hourData := match senderNumber with
    | some _ => lookupD st.byHourBySender senderNumber []
    | none => st.byHour
  ⟨List.range 24, (List.range 24).map (fun h => lookupD hourData h 0)⟩

/-! ## Events (`iMessage` / `Message` / `Reaction`) -/

structure MsgRec where
  guid : String
  sender : Option String
  timestamp : PyDateTime
  text : Option String
  hasAttachment : Bool
  isUnsent : Bool
deriving DecidableEq, Repr

structure ReactRec where
  guid : String
  sender : Option String
  timestamp : PyDateTime
  text : Option String
  assocGuid : String
deriving DecidableEq, Repr

/-- A constructed event: `Message` or `Reaction` (the `isinstance`
dispatch of the trackers pattern-matches this). -/
inductive Event
  | message (m : MsgRec)
  | reaction (r : ReactRec)
deriving DecidableEq, Repr

def Event.sender : Event → Option String
  | .message m => m.sender
  | .reaction r => r.sender

def Event.timestamp : Event → PyDateTime
  | .message m => m.timestamp
  | .reaction r => r.timestamp

/-! ## `MessageStatistic` / `AttachmentStatistic` -/

/-- Embeds `MessageStatistic.record` (messages and reactions alike). -/
def MessageStatistic.record (st : BaseStat) (msg : Event) : BaseStat :=
  st.recordBase msg.sender msg.timestamp.date msg.timestamp.hour

/-- Embeds `AttachmentStatistic.record` (only `Message`s with an attachment). -/
def AttachmentStatistic.record (st : BaseStat) (msg : Event) : BaseStat :=
  match msg with
  | .message m =>
    if m.hasAttachment then st.recordBase m.sender m.timestamp.date m.timestamp.hour
    else st
  | .reaction _ => st

/-! ## `DoubleTextStatistic` -/

/-- The `last_message_*` fields of the stateful trackers.  The Python code
initialises them to `None` and always assigns them together, so they are
bundled behind a single `Option` (a prior message whose sender was `None`
gives `sender = none` here, matching `last_message_sender is None`). -/
structure LastInfo where
  sender : Option String
  time : PyDateTime
deriving DecidableEq, Repr

structure DoubleTextStat where
  base : BaseStat
  timeBetweenTimeline : List (Option String × List (PyDateTime × List ℚ))
  timeBetweenByHour : List (Option String × List (Nat × List ℚ))
  sentTimeline : List (Option String × List (PyDateTime × Nat))
  last : Option LastInfo
  currentStreakStart : Option PyDateTime
deriving DecidableEq, Repr

def DoubleTextStat.empty : DoubleTextStat := ⟨BaseStat.empty, [], [], [], none, none⟩

/-- Embeds `DoubleTextStatistic.record`. -/
def DoubleTextStat.record (st : DoubleTextStat) (msg : Event) : DoubleTextStat :=
  match msg with
  | .reaction _ => st
  | .message m =>
    let date := m.timestamp.date
    let hour := m.timestamp.hour
    let datetimeKey := combineKey date hour
    let st1 := { st with sentTimeline := upsert2 st.sentTimeline m.sender datetimeKey (· + 1) 0 }
    match st1.last with
    | some lastMsg =>
      if lastMsg.sender = m.sender ∧ lastMsg.sender ≠ none then
        -- double text: record, then append the diff against the streak anchor
        let st2 := { st1 with base := st1.base.recordBase m.sender date hour }
        let st3 :=
          match st2.currentStreakStart with
          | some streakStart =>
            let timeDiff := diffMinutes streakStart m.timestamp
            { st2 with
              timeBetweenTimeline :=
                upsert2 st2.timeBetweenTimeline m.sender datetimeKey (· ++ [timeDiff]) []
              timeBetweenByHour :=
                upsert2 st2.timeBetweenByHour m.sender hour (· ++ [timeDiff]) [] }
          | none => st2
        -- self.current_streak_start = self.last_message_time (not yet updated)
        { st3 with
          currentStreakStart := some lastMsg.time
          last := some ⟨m.sender, m.timestamp⟩ }
      else
        { st1 with
          currentStreakStart := some m.timestamp
          last := some ⟨m.sender, m.timestamp⟩ }
    | none =>
      { st1 with
        currentStreakStart := some m.timestamp
        last := some ⟨m.sender, m.timestamp⟩ }

/-! ## Median / mean (`_median` is textually identical in
`DoubleTextStatistic`, `ResponseTimeStatistic`, `WordCountStatistic` and
`MessagesWrapped`) -/

/-- Python `sorted` on numbers (ascending). -/
def pySorted (l : List ℚ) : List ℚ := List.insertionSort (· ≤ ·) l

/-- Embeds `_median`. -/
def pyMedian (l : List ℚ) : ℚ :=
  if l = [] then 0
  else if (pySorted l).length % 2 = 0 then
    ((pySorted l).getD ((pySorted l).length / 2 - 1) 0 +
      (pySorted l).getD ((pySorted l).length / 2) 0) / 2
  else (pySorted l).getD ((pySorted l).length / 2) 0

/-! ## `ResponseTimeStatistic` -/

structure ResponseTimeStat where
  base : BaseStat
  responseTimeTimeline : List (Option String × List (PyDateTime × List ℚ))
  responseTimeByHour : List (Option String × List (Nat × List ℚ))
  last : Option LastInfo
deriving DecidableEq, Repr

def ResponseTimeStat.empty : ResponseTimeStat := ⟨BaseStat.empty, [], [], none⟩

/-- Embeds `ResponseTimeStatistic.record` (messages and reactions alike;
`last_message_date`/`last_message_hour` are the stored projections of
`last_message_time`, always assigned together with it). -/
def ResponseTimeStat.record (st : ResponseTimeStat) (msg : Event) : ResponseTimeStat :=
  let currentSender := msg.sender
  let currentTime := msg.timestamp
  let proceed :=
    match st.last with
    | some lastMsg =>
      if lastMsg.sender ≠ none ∧ lastMsg.sender ≠ currentSender then
        let responseTimeMinutes := diffMinutes lastMsg.time currentTime
        -- datetime key of the ORIGINAL message's time, not the reply's
        let datetimeKey := combineKey lastMsg.time.date lastMsg.time.hour
        { st with
          responseTimeTimeline :=
            upsert2 st.responseTimeTimeline currentSender datetimeKey
              (· ++ [responseTimeMinutes]) []
          responseTimeByHour :=
            upsert2 st.responseTimeByHour currentSender lastMsg.time.hour
              (· ++ [responseTimeMinutes]) []
          base := st.base.recordBase currentSender lastMsg.time.date lastMsg.time.hour }
      else st
    | none => st
  { proceed with last := some ⟨currentSender, currentTime⟩ }

/-! ## `WordCountStatistic` -/

/-- Python `str.split()` (split on whitespace runs, no empty tokens). -/
def pySplitAux : List Char → List Char → List String
  | [], [] => []
  | [], cur => [String.mk cur.reverse]
  | c :: rest, cur =>
    if c.isWhitespace then
      match cur with
      | [] => pySplitAux rest []
      | _ => String.mk cur.reverse :: pySplitAux rest []
    else pySplitAux rest (c :: cur)

def pySplit (s : String) : List String := pySplitAux s.toList []

/-- Python `str.strip()`. -/
def pyStrip (s : String) : String :=
  String.mk (((s.toList.dropWhile Char.isWhitespace).reverse.dropWhile
    Char.isWhitespace).reverse)

structure WordCountStat where
  base : BaseStat
  wordsPerMessageTimeline : List (Option String × List (PyDateTime × List Nat))
  wordsPerMessageByHour : List (Option String × List (Nat × List Nat))
  totalWordsTimeline : List (Option String × List (PyDateTime × Nat))
  totalWordsByHour : List (Option String × List (Nat × Nat))
  debugTotalMessages : Nat
  debugMessagesWithText : Nat
  debugMessagesRecorded : Nat
deriving DecidableEq, Repr

def WordCountStat.empty : WordCountStat := ⟨BaseStat.empty, [], [], [], [], 0, 0, 0⟩

/-- Embeds `words = [w for w in msg.text.split() if w.strip()]` and its length. -/
def wordsOf (text : String) : List String :=
  (pySplit text).filter (fun w => decide (pyStrip w ≠ ""))

/-- Embeds `WordCountStatistic.record`. -/
def WordCountStat.record (st : WordCountStat) (msg : Event) : WordCountStat :=
  let st0 := { st with debugTotalMessages := st.debugTotalMessages + 1 }
  match msg with
  | .reaction _ => st0
  | .message m =>
    match m.text with
    | none => st0          -- `if not msg.text: return`
    | some t =>
      if t = "" then st0   -- the empty string is also falsy
      else
        let st1 := { st0 with debugMessagesWithText := st0.debugMessagesWithText + 1 }
        let wordCount := (wordsOf t).length
        if wordCount = 0 then st1
        else
          let date := m.timestamp.date
          let hour := m.timestamp.hour
          let datetimeKey := combineKey date hour
          { st1 with
            debugMessagesRecorded := st1.debugMessagesRecorded + 1
            wordsPerMessageTimeline :=
              upsert2 st1.wordsPerMessageTimeline m.sender datetimeKey (· ++ [wordCount]) []
            wordsPerMessageByHour :=
              upsert2 st1.wordsPerMessageByHour m.sender hour (· ++ [wordCount]) []
            totalWordsTimeline :=
              upsert2 st1.totalWordsTimeline m.sender datetimeKey (· + wordCount) 0
            totalWordsByHour :=
              upsert2 st1.totalWordsByHour m.sender hour (· + wordCount) 0
            base := st1.base.recordBase m.sender date hour }

/-! ## `DoubleTextStatistic.get_sent_received_ratio_timeline` -/

structure RatioOut where
  dates : List PeriodKey
  ratioVals : List ℚ
  sentCounts : List Nat
  receivedCounts : List Nat
deriving DecidableEq, Repr

/-- One output row of the ratio timeline (ratio, sent, received) for a
bucket key. -/
def ratioRow (sentAgg receivedAgg : List (PeriodKey × Nat)) (dk : PeriodKey) :
    ℚ × Nat × Nat :=
  let sent := lookupD sentAgg dk 0
  let received := lookupD receivedAgg dk 0
  let total := sent + received
  (if 0 < total then (sent : ℚ) / (total : ℚ) else (1 : ℚ) / 2, sent, received)

/-- Embeds `received_data`: every sender other than the queried one,
accumulated per datetime key. -/
def receivedDataOf (sentTimeline : List (Option String × List (PyDateTime × Nat)))
    (senderNumber : Option String) : List (PyDateTime × Nat) :=
  sentTimeline.foldl
    (fun acc pr => if pr.1 ≠ senderNumber then foldAdd id pr.2 acc else acc) []

/-- Embeds `sorted(set(keys_a + keys_b))`. -/
def sortedKeyUnion (a b : List (PeriodKey × Nat)) : List PeriodKey :=
  List.insertionSort keyLE ((a.map (·.1)) ++ (b.map (·.1))).dedup

/-- Embeds `DoubleTextStatistic.get_sent_received_ratio_timeline`. -/
def DoubleTextStat.getSentReceivedRatioTimeline (st : DoubleTextStat)
    (senderNumber : Option String) (p : Period) : RatioOut :=
  if ¬ containsKey st.sentTimeline senderNumber then ⟨[], [], [], []⟩
  else
    let sentData := lookupD st.sentTimeline senderNumber []
    let receivedData := receivedDataOf st.sentTimeline senderNumber
    let sentAgg := aggregateCounts sentData p
    let receivedAgg := aggregateCounts receivedData p
    let allDates := sortedKeyUnion sentAgg receivedAgg
    let rows := allDates.map (ratioRow sentAgg receivedAgg)
    ⟨allDates, rows.map (·.1), rows.map (·.2.1), rows.map (·.2.2)⟩

/-! ## Cross-conversation aggregation (`MessagesWrapped`) -/

structure SenderInfo where
  name : String
  messagesSent : Nat
  reactionsSent : Nat
  messagesUnsent : Nat
  attachmentsSent : Nat
deriving DecidableEq, Repr

/-- The slice of a populated `Conversation` that the aggregator queries
(remaining trackers are independent objects and never read by the
functions below). -/
structure ConversationModel where
  senders : List (Option String × SenderInfo)
  messageStats : BaseStat
  attachmentStats : BaseStat
  doubleTextStats : DoubleTextStat
deriving DecidableEq, Repr

/-- Embeds `MessagesWrapped._resolve_sender_key`. -/
def resolveSenderKey (convo : ConversationModel) (senderLabel : Option String) :
    Option String :=
  match senderLabel with
  | none => none
  | some l =>
    if containsKey convo.senders (some l) then some l
    else
      match convo.senders.find? (fun pr => pr.2.name == l) with
      | some pr => pr.1
      | none => some l

/-- The date part `_in_date_range` extracts (`dt.date()` on datetimes). -/
def dateOfKey : PeriodKey → PyDate
  | .hourKey d _ => d
  | .dateKey d => d

/-- Embeds `MessagesWrapped._in_date_range` (inclusive on both ends; `None`
bounds do not constrain). -/
def inDateRange (k : PeriodKey) (startD endD : Option PyDate) : Bool :=
  let d := dateOfKey k
  (match startD with
   | some s => ! PyDate.lt d s
   | none => true) &&
  (match endD with
   | some e => ! PyDate.lt e d
   | none => true)

/-- The inner loop of the daily-resolution branch of
`get_combined_messages_timeline`: keep the in-range days, re-key each at
the requested period, sum. -/
def dailyRebucketLoop (p : Period) (startD endD : Option PyDate)
    (acc : List (PeriodKey × Nat)) (rows : List (PeriodKey × Nat)) :
    List (PeriodKey × Nat) :=
  rows.foldl
    (fun acc2 pr =>
      if ! inDateRange pr.1 startD endD then acc2
      else upsert acc2 (periodKeyOf (combineKey (dateOfKey pr.1) 0) p) (· + pr.2) 0)
    acc

/-- The inner loop shared by the non-rebucketing branches: filter the
period keys themselves against the range, sum. -/
def coarseFilterLoop (startD endD : Option PyDate)
    (acc : List (PeriodKey × Nat)) (rows : List (PeriodKey × Nat)) :
    List (PeriodKey × Nat) :=
  rows.foldl
    (fun acc2 pr =>
      if (startD.isSome || endD.isSome) && ! inDateRange pr.1 startD endD then acc2
      else upsert acc2 pr.1 (· + pr.2) 0)
    acc

/-- One conversation's contribution in `get_combined_messages_timeline`. -/
def combinedMessagesStep (senderNumber : Option String) (p : Period)
    (startD endD : Option PyDate) (acc : List (PeriodKey × Nat))
    (convo : ConversationModel) : List (PeriodKey × Nat) :=
  let resolved := resolveSenderKey convo senderNumber
  if (startD.isSome || endD.isSome) && p ≠ Period.day then
    -- pull daily buckets, filter by actual day, re-aggregate
    dailyRebucketLoop p startD endD acc
      (let data := convo.messageStats.getTimeline resolved Period.day
       data.dates.zip data.counts)
  else
    coarseFilterLoop startD endD acc
      (let data := convo.messageStats.getTimeline resolved p
       data.dates.zip data.counts)

/-- The `aggregated` dict built by `get_combined_messages_timeline`. -/
def combinedMessagesAgg (convos : List ConversationModel)
    (senderNumber : Option String) (p : Period) (startD endD : Option PyDate) :
    List (PeriodKey × Nat) :=
  convos.foldl (combinedMessagesStep senderNumber p startD endD) []

/-- Embeds `MessagesWrapped.get_combined_messages_timeline`. -/
def getCombinedMessagesTimeline (convos : List ConversationModel)
    (senderNumber : Option String) (p : Period) (startD endD : Option PyDate) :
    TimelineOut :=
  let srt := sortPairs (combinedMessagesAgg convos senderNumber p startD endD)
  ⟨srt.map (·.1), srt.map (·.2)⟩

/-- The `aggregated` dict of `get_combined_double_texts_timeline`: the
per-conversation data is requested directly at the target period and the
period keys themselves are date-filtered. -/
def combinedDoubleTextsAgg (convos : List ConversationModel)
    (senderNumber : Option String) (p : Period) (startD endD : Option PyDate) :
    List (PeriodKey × Nat) :=
  convos.foldl
    (fun acc convo =>
      let resolved := resolveSenderKey convo senderNumber
      let data := convo.doubleTextStats.base.getTimeline resolved p
      coarseFilterLoop startD endD acc (data.dates.zip data.counts))
    []

/-- Embeds `MessagesWrapped.get_combined_double_texts_timeline`. -/
def getCombinedDoubleTextsTimeline (convos : List ConversationModel)
    (senderNumber : Option String) (p : Period) (startD endD : Option PyDate) :
    TimelineOut :=
  let srt := sortPairs (combinedDoubleTextsAgg convos senderNumber p startD endD)
  ⟨srt.map (·.1), srt.map (·.2)⟩

/-- The `aggregated` dict of `get_combined_attachments_timeline` (same
shape as the double-texts one, over the attachment tracker). -/
def combinedAttachmentsAgg (convos : List ConversationModel)
    (senderNumber : Option String) (p : Period) (startD endD : Option PyDate) :
    List (PeriodKey × Nat) :=
  convos.foldl
    (fun acc convo =>
      let resolved := resolveSenderKey convo senderNumber
      let data := convo.attachmentStats.getTimeline resolved p
      coarseFilterLoop startD endD acc (data.dates.zip data.counts))
    []

/-- Embeds `MessagesWrapped.get_combined_attachments_timeline`. -/
def getCombinedAttachmentsTimeline (convos : List ConversationModel)
    (senderNumber : Option String) (p : Period) (startD endD : Option PyDate) :
    TimelineOut :=
  let srt := sortPairs (combinedAttachmentsAgg convos senderNumber p startD endD)
  ⟨srt.map (·.1), srt.map (·.2)⟩

/-! ## Conversation construction (`Conversation.__init__`) -/

inductive RawItem
  | msg (m : MsgRec)
  | react (r : ReactRec)
deriving DecidableEq, Repr

structure ConversationBuild where
  thread : List Event
  messages : List (String × (MsgRec × List ReactRec))
  reactions : List (String × ReactRec)
  skippedCount : Nat
deriving DecidableEq, Repr

/-- One iteration of the `for item in self.json_data` loop.  The three
statements of the reaction case sit in one `try`: the `reactions` dict
insert and the `thread.append` precede the parent lookup, so they persist
even when `self.messages[assoc_guid]` raises `KeyError`; the handler
only increments `skipped_count`. -/
def conversationStep (st : ConversationBuild) (item : RawItem) : ConversationBuild :=
  match item with
  | .msg m =>
    { st with
      messages := upsert st.messages m.guid (fun _ => (m, [])) (m, [])
      thread := st.thread ++ [Event.message m] }
  | .react r =>
    let st1 := { st with
      reactions := upsert st.reactions r.guid (fun _ => r) r
      thread := st.thread ++ [Event.reaction r] }
    if containsKey st1.messages r.assocGuid then
      { st1 with
        messages := adjust st1.messages r.assocGuid (fun pr => (pr.1, pr.2 ++ [r])) }
    else
      { st1 with skippedCount := st1.skippedCount + 1 }

def buildConversation (items : List RawItem) : ConversationBuild :=
  items.foldl conversationStep ⟨[], [], [], 0⟩

/-- The event an input record turns into. -/
def RawItem.toEvent : RawItem → Event
  | .msg m => Event.message m
  | .react r => Event.reaction r

/-! ## Timestamp normalization (`iMessage.__init__`) -/

/-- An aware ISO-8601 timestamp as parsed by `datetime.fromisoformat`:
wall-clock fields plus the UTC offset the string carries. -/
structure ZonedTimestamp where
  wall : PyDateTime
  offsetMinutes : Int
deriving DecidableEq, Repr

/-- The instant (minutes since the epoch of `PyDate.toDays`, in UTC)
that an aware timestamp denotes. -/
def ZonedTimestamp.instant (t : ZonedTimestamp) : Int :=
  (t.wall.toMinutes : Int) - t.offsetMinutes

/-- Date of a day number (inverse of `PyDate.toDays` via the era-based
civil-from-days algorithm; computational helper for `zoneinfo`). -/
def PyDate.ofDays (z : Nat) : PyDate :=
  let era := z / 146097
  let doe := z % 146097
  let yoe := (doe - doe / 1460 + doe / 36524 - doe / 146096) / 365
  let y := yoe + era * 400
  let doy := doe - (365 * yoe + yoe / 4 - yoe / 100)
  let mp := (5 * doy + 2) / 153
  let d := doy - (153 * mp + 2) / 5 + 1
  let m := if mp < 10 then mp + 3 else mp - 9
  ⟨y + (if m ≤ 2 then 1 else 0), m, d⟩

/-- Inverse of `PyDateTime.toMinutes` (computational helper). -/
def dateTimeOfMinutes (n : Nat) : PyDateTime :=
  ⟨PyDate.ofDays (n / 1440), n % 1440 / 60, n % 60⟩

/-- UTC instant at which US daylight saving starts in year `y`
(second Sunday of March, 02:00 EST = 07:00 UTC; rule in force since
2007, the era the archive's timestamps live in). -/
def dstStartInstant (y : Nat) : Int :=
  let ws := PyDate.weekday ⟨y, 3, 1⟩
  let dayN := 1 + (13 - ws) % 7 + 7
  (PyDate.toDays ⟨y, 3, dayN⟩ : Int) * 1440 + 420

/-- UTC instant at which US daylight saving ends in year `y`
(first Sunday of November, 02:00 EDT = 06:00 UTC). -/
def dstEndInstant (y : Nat) : Int :=
  let ws := PyDate.weekday ⟨y, 11, 1⟩
  let dayN := 1 + (13 - ws) % 7
  (PyDate.toDays ⟨y, 11, dayN⟩ : Int) * 1440 + 360

/-- Offset of `America/New_York` from UTC, in minutes, at a UTC instant:
−240 during daylight saving, −300 otherwise. -/
def nyOffset (instant : Int) : Int :=
  let estYear := (PyDate.ofDays ((instant - 300).toNat / 1440)).year
  if dstStartInstant estYear ≤ instant ∧ instant < dstEndInstant estYear then -240
  else -300

/-- Embeds `.astimezone(ZoneInfo("America/New_York"))` on an aware datetime:
the result depends on the input only through the instant it denotes. -/
def astimezoneNY (t : ZonedTimestamp) : PyDateTime :=
  dateTimeOfMinutes ((t.instant + nyOffset t.instant).toNat)

/-- The record fields `iMessage.__init__` consumes. -/
structure RawEvent where
  guid : String
  sender : Option String
  timestampISO : ZonedTimestamp
  text : Option String
  isUnsent : Bool
deriving DecidableEq, Repr

/-- The `self.timestamp` an `iMessage` (message or reaction) is
constructed with. -/
def iMessageTimestamp (rec : RawEvent) : PyDateTime :=
  astimezoneNY rec.timestampISO

/-! ## Claim theorems -/

/-- Claim C9: the median helper (`_median`, textually identical in
`DoubleTextStatistic`, `ResponseTimeStatistic`, `WordCountStatistic` and
`MessagesWrapped`) returns the exact middle element of the
ascending-sorted list for odd lengths, the average of the two central
elements of the ascending-sorted list for even lengths, and exactly 0
for the empty list; `[1,2,3] ↦ 2`, `[1,2,3,4] ↦ 2.5`, `[] ↦ 0`. -/
theorem median_spec :
    pyMedian [] = 0 ∧
    (∀ l : List ℚ, (pySorted l).Perm l ∧ List.Sorted (· ≤ ·) (pySorted l)) ∧
    (∀ l : List ℚ, l ≠ [] → l.length % 2 = 1 →
      pyMedian l = (pySorted l).getD (l.length / 2) 0) ∧
    (∀ l : List ℚ, l ≠ [] → l.length % 2 = 0 →
      pyMedian l =
        ((pySorted l).getD (l.length / 2 - 1) 0 + (pySorted l).getD (l.length / 2) 0) / 2) ∧
    pyMedian [1, 2, 3] = 2 ∧ pyMedian [1, 2, 3, 4] = 5 / 2 := by
  have hlen : ∀ l : List ℚ, (pySorted l).length = l.length := fun l =>
    (List.perm_insertionSort _ l).length_eq
  refine ⟨rfl,
    fun l => ⟨List.perm_insertionSort _ l, List.sorted_insertionSort _ l⟩,
    ?_, ?_, by decide, ?_⟩
  · intro l hne hodd
    unfold pyMedian
    rw [if_neg hne]
    simp only [hlen]
    rw [if_neg (by omega)]
  · intro l hne heven
    unfold pyMedian
    rw [if_neg hne]
    simp only [hlen]
    rw [if_pos heven]
  · have hs : pySorted [(1 : ℚ), 2, 3, 4] = [1, 2, 3, 4] := by decide
    unfold pyMedian
    rw [if_neg (by decide), hs]
    norm_num

/-- Witness for `median_spec`: its odd- and even-length clauses applied
at `[1,2,3]` and `[1,2,3,4]`. -/
theorem median_spec_witness :
    pyMedian [(1 : ℚ), 2, 3] = (pySorted [(1 : ℚ), 2, 3]).getD 1 0 ∧
      pyMedian [(1 : ℚ), 2, 3, 4] =
        ((pySorted [(1 : ℚ), 2, 3, 4]).getD 1 0 + (pySorted [(1 : ℚ), 2, 3, 4]).getD 2 0) / 2 :=
  ⟨median_spec.2.2.1 [(1 : ℚ), 2, 3] (by decide) (by decide),
   median_spec.2.2.2.1 [(1 : ℚ), 2, 3, 4] (by decide) (by decide)⟩

/-- Claim C7: `_get_period_key` maps a datetime to: its hour-truncation for
hour granularity; its date for day granularity; the Monday on or before
its date for week granularity (a date with weekday 0, at most 6 days
back); the first of its month for month granularity; the first of its
year for year granularity; and raises
`ValueError` for every other string. -/
theorem periodKey_spec :
    (∀ dt : PyDateTime, getPeriodKey dt "hour" = .ok (.hourKey dt.date dt.hour)) ∧
    (∀ dt : PyDateTime, getPeriodKey dt "day" = .ok (.dateKey dt.date)) ∧
    (∀ dt : PyDateTime, ValidDate dt.date → ∀ w : PyDate,
      getPeriodKey dt "week" = .ok (.dateKey w) →
        PyDate.weekday w = 0 ∧ w.toDays ≤ dt.date.toDays ∧
          dt.date.toDays < w.toDays + 7 ∧ ValidDate w) ∧
    (∀ dt : PyDateTime,
      getPeriodKey dt "month" = .ok (.dateKey ⟨dt.date.year, dt.date.month, 1⟩)) ∧
    (∀ dt : PyDateTime,
      getPeriodKey dt "year" = .ok (.dateKey ⟨dt.date.year, 1, 1⟩)) ∧
    (∀ (dt : PyDateTime) (s : String), s ≠ "hour" → s ≠ "day" → s ≠ "week" →
      s ≠ "month" → s ≠ "year" →
        getPeriodKey dt s = .error ("Invalid period: " ++ s ++
          ". Use hour, day, week, month, or year.")) := by
  refine ⟨fun dt => rfl, fun dt => rfl, ?_, fun dt => rfl, fun dt => rfl, ?_⟩
  · intro dt hv w hw
    have hweek : getPeriodKey dt "week" =
        .ok (.dateKey (dt.date.subDays dt.date.weekday)) := rfl
    rw [hweek] at hw
    have hwd : w = dt.date.subDays dt.date.weekday := by
      injection hw with hw2
      injection hw2 with hw3
      exact hw3.symm
    subst hwd
    have hmin := toDays_min dt.date hv
    have hrdef : PyDate.weekday dt.date = (dt.date.toDays + 2) % 7 := rfl
    have hwbound : dt.date.weekday + 306 ≤ dt.date.toDays := by rw [hrdef]; omega
    obtain ⟨hdays, hval⟩ := toDays_subDays dt.date dt.date.weekday hv hwbound
    refine ⟨?_, by omega, by omega, hval⟩
    show ((dt.date.subDays dt.date.weekday).toDays + 2) % 7 = 0
    omega
  · intro dt s h1 h2 h3 h4 h5
    unfold getPeriodKey parsePeriod
    rw [if_neg h1, if_neg h2, if_neg h3, if_neg h4, if_neg h5]

/-- Witness for `periodKey_spec`: the week clause at 2024-07-02 (whose
Monday is 2024-07-01) and the error clause at the string `"decade"`. -/
theorem periodKey_spec_witness :
    (PyDate.weekday (PyDate.subDays ⟨2024, 7, 2⟩ (PyDate.weekday ⟨2024, 7, 2⟩)) = 0 ∧
      (PyDate.subDays ⟨2024, 7, 2⟩ (PyDate.weekday ⟨2024, 7, 2⟩)).toDays ≤
        PyDate.toDays ⟨2024, 7, 2⟩ ∧
      PyDate.toDays ⟨2024, 7, 2⟩ <
        (PyDate.subDays ⟨2024, 7, 2⟩ (PyDate.weekday ⟨2024, 7, 2⟩)).toDays + 7 ∧
      ValidDate (PyDate.subDays ⟨2024, 7, 2⟩ (PyDate.weekday ⟨2024, 7, 2⟩))) ∧
    getPeriodKey ⟨⟨2024, 7, 2⟩, 10, 0⟩ "decade" = .error ("Invalid period: " ++ "decade" ++
      ". Use hour, day, week, month, or year.") :=
  ⟨periodKey_spec.2.2.1 ⟨⟨2024, 7, 2⟩, 10, 0⟩ (by decide)
      (PyDate.subDays ⟨2024, 7, 2⟩ (PyDate.weekday ⟨2024, 7, 2⟩)) rfl,
   periodKey_spec.2.2.2.2.2 ⟨⟨2024, 7, 2⟩, 10, 0⟩ "decade"
      (by decide) (by decide) (by decide) (by decide) (by decide)⟩

/-! ### C1: the double-text stream A@t=0, A@t=5, A@t=6, B@t=10 -/

/-- A message of the C1 example stream (2024-07-01, hour 0). -/
def streakMsg (s : String) (minute : Nat) : Event :=
  Event.message ⟨"g", some s, ⟨⟨2024, 7, 1⟩, 0, minute⟩, some "hi", false, false⟩

/-- The double-text tracker after the C1 example stream. -/
def streakRun : DoubleTextStat :=
  ([streakMsg "A" 0, streakMsg "A" 5, streakMsg "A" 6,
    streakMsg "B" 10]).foldl DoubleTextStat.record DoubleTextStat.empty

/-- Claim C1, counterexample: on the stream A@0min, A@5min, A@6min, B@10min
the recorded `time_between_timeline` entries for A are NOT `[5.0, 1.0]`:
the code assigns `current_streak_start = last_message_time` before
`last_message_time` is updated, so the anchor for the t=6 diff is still
t=0. -/
theorem doubleText_anchor_counterexample :
    lookup2D streakRun.timeBetweenTimeline (some "A")
      (combineKey ⟨2024, 7, 1⟩ 0) ([] : List ℚ) ≠ [5, 1] := by decide

/-- Claim C1, amended: the stream registers exactly 2 double-text
occurrences for A in the hour-0 bucket (and none elsewhere), and
`time_between_timeline[A]` for that bucket is `[5.0, 6.0]` — both diffs
measured against t=0, because the anchor assignment lags one step. -/
theorem doubleText_anchor_amended :
    lookup2D streakRun.timeBetweenTimeline (some "A")
      (combineKey ⟨2024, 7, 1⟩ 0) ([] : List ℚ) = [5, 6] ∧
    lookup2D streakRun.base.timelineBySender (some "A")
      (combineKey ⟨2024, 7, 1⟩ 0) 0 = 2 ∧
    streakRun.base.timeline = [(combineKey ⟨2024, 7, 1⟩ 0, 2)] ∧
    streakRun.timeBetweenByHour = [(some "A", [(0, [5, 6])])] := by
  refine ⟨by decide, by decide, by decide, by decide⟩

/-! ### C4: response-time attribution -/

theorem lookup2D_upsert2_self {κ1 κ2 α : Type} [DecidableEq κ1] [DecidableEq κ2]
    (l : List (κ1 × List (κ2 × α))) (k1 : κ1) (k2 : κ2) (f : α → α) (d : α) :
    lookup2D (upsert2 l k1 k2 f d) k1 k2 d = f (lookup2D l k1 k2 d) := by
  unfold lookup2D upsert2
  rw [lookupD_upsert, if_pos rfl, lookupD_upsert, if_pos rfl]

/-- Claim C4, amended: whenever an event M follows a prior event whose
sender is **not `None`** and differs from M's sender,
`ResponseTimeStatistic.record` appends the elapsed minutes to
`response_time_timeline[M.sender]` keyed by the *prior* message's
date-and-hour bucket and to `response_time_by_hour[M.sender]` keyed by
the *prior* message's hour — never by M's own time (the base tracker is
also bumped at the prior message's bucket).  (Unamended, the claim fails
when the prior sender is `None`: see
`responseTime_attribution_counterexample`.) -/
theorem responseTime_step (st : ResponseTimeStat) (ev : Event) (lastMsg : LastInfo)
    (hl : st.last = some lastMsg) (hn : lastMsg.sender ≠ none)
    (hd : lastMsg.sender ≠ ev.sender) :
    lookup2D (st.record ev).responseTimeTimeline ev.sender
        (combineKey lastMsg.time.date lastMsg.time.hour) ([] : List ℚ) =
      lookup2D st.responseTimeTimeline ev.sender
        (combineKey lastMsg.time.date lastMsg.time.hour) ([] : List ℚ) ++
        [diffMinutes lastMsg.time ev.timestamp] ∧
    lookup2D (st.record ev).responseTimeByHour ev.sender lastMsg.time.hour
        ([] : List ℚ) =
      lookup2D st.responseTimeByHour ev.sender lastMsg.time.hour ([] : List ℚ) ++
        [diffMinutes lastMsg.time ev.timestamp] ∧
    lookup2D (st.record ev).base.timelineBySender ev.sender
        (combineKey lastMsg.time.date lastMsg.time.hour) 0 =
      lookup2D st.base.timelineBySender ev.sender
        (combineKey lastMsg.time.date lastMsg.time.hour) 0 + 1 ∧
    (st.record ev).last = some ⟨ev.sender, ev.timestamp⟩ := by
  simp only [ResponseTimeStat.record, hl]
  rw [if_pos ⟨hn, hd⟩]
  refine ⟨?_, ?_, ?_, by trivial⟩
  · rw [lookup2D_upsert2_self]
  · rw [lookup2D_upsert2_self]
  · simp only [BaseStat.recordBase]
    rw [lookup2D_upsert2_self]

/-- The C4 example events. -/
def replyEv1None : Event :=
  Event.message ⟨"g1", none, ⟨⟨2024, 7, 1⟩, 9, 0⟩, some "hi", false, false⟩

def replyEv2A : Event :=
  Event.message ⟨"g2", some "A", ⟨⟨2024, 7, 1⟩, 9, 7⟩, some "yo", false, false⟩

def replyEv1A : Event :=
  Event.message ⟨"g1", some "A", ⟨⟨2024, 7, 1⟩, 9, 0⟩, some "hi", false, false⟩

def replyEv2B : Event :=
  Event.message ⟨"g2", some "B", ⟨⟨2024, 7, 1⟩, 9, 7⟩, some "yo", false, false⟩

/-- Claim C4, counterexample: a prior event with sender `None` followed by
a reply from A seven minutes later — the senders differ, yet nothing is
recorded for A (the guard `last_message_sender is not None` skips it),
so the claim's `[7.0]` is not produced. -/
theorem responseTime_attribution_counterexample :
    lookup2D (([replyEv1None, replyEv2A]).foldl ResponseTimeStat.record
        ResponseTimeStat.empty).responseTimeTimeline
      (some "A") (combineKey ⟨2024, 7, 1⟩ 9) ([] : List ℚ) ≠ [7] ∧
    (([replyEv1None, replyEv2A]).foldl ResponseTimeStat.record
        ResponseTimeStat.empty).responseTimeTimeline = [] := by
  refine ⟨by decide, by decide⟩

/-- Witness for `responseTime_step`: A sends at 09:00, B replies at
09:07; the reply is recorded under the hour-9 bucket of A's message as
`[7.0]`. -/
theorem responseTime_step_witness :
    lookup2D ((ResponseTimeStat.record (ResponseTimeStat.record
        ResponseTimeStat.empty replyEv1A) replyEv2B)).responseTimeTimeline
      (some "B") (combineKey ⟨2024, 7, 1⟩ 9) ([] : List ℚ) = [7] := by
  have h := responseTime_step (ResponseTimeStat.record ResponseTimeStat.empty replyEv1A)
    replyEv2B ⟨some "A", ⟨⟨2024, 7, 1⟩, 9, 0⟩⟩ (by decide) (by decide) (by decide)
  exact h.1.trans (by decide)

/-! ### C2: combined double-text / attachment timelines drop coarse
buckets whose canonical key is outside the date filter -/

/-- A message from A on Tuesday 2024-07-02 at 10:00+minute. -/
def tueMsg (minute : Nat) : Event :=
  Event.message ⟨"g", some "A", ⟨⟨2024, 7, 2⟩, 10, minute⟩, some "hi", false, false⟩

/-- A message from A with an attachment on Tuesday 2024-07-02. -/
def tueAttachMsg : Event :=
  Event.message ⟨"g", some "A", ⟨⟨2024, 7, 2⟩, 10, 0⟩, some "pic", true, false⟩

/-- One conversation whose only double text and only attachment are on
Tuesday 2024-07-02 (the Monday of that week is 2024-07-01). -/
def tueConvo : ConversationModel :=
  { senders := [(some "A", ⟨"Alice", 2, 0, 0, 1⟩)]
    messageStats := ([tueMsg 0, tueMsg 5]).foldl MessageStatistic.record BaseStat.empty
    attachmentStats := ([tueAttachMsg]).foldl AttachmentStatistic.record BaseStat.empty
    doubleTextStats := ([tueMsg 0, tueMsg 5]).foldl DoubleTextStat.record DoubleTextStat.empty }

/-- Claim C2: with the inclusive filter `[2024-07-02, 2024-07-02]` and
weekly granularity, `get_combined_double_texts_timeline` and
`get_combined_attachments_timeline` return nothing at all, although the
double text and the attachment both lie on the (in-range) Tuesday — the
daily query proves the data is there, and the unfiltered weekly query
proves the bucket exists, keyed by the out-of-range Monday 2024-07-01.
These two functions query at the requested coarse period directly and
filter the canonical bucket keys, instead of pulling daily resolution
and re-bucketing as the claim (and `get_combined_messages_timeline`)
prescribe. -/
theorem combinedCoarseFilter_eval :
    getCombinedDoubleTextsTimeline [tueConvo] none Period.week
        (some ⟨2024, 7, 2⟩) (some ⟨2024, 7, 2⟩) = ⟨[], []⟩ ∧
    getCombinedDoubleTextsTimeline [tueConvo] none Period.day
        (some ⟨2024, 7, 2⟩) (some ⟨2024, 7, 2⟩) =
      ⟨[.dateKey ⟨2024, 7, 2⟩], [1]⟩ ∧
    getCombinedDoubleTextsTimeline [tueConvo] none Period.week none none =
      ⟨[.dateKey ⟨2024, 7, 1⟩], [1]⟩ ∧
    getCombinedAttachmentsTimeline [tueConvo] none Period.week
        (some ⟨2024, 7, 2⟩) (some ⟨2024, 7, 2⟩) = ⟨[], []⟩ ∧
    getCombinedAttachmentsTimeline [tueConvo] none Period.day
        (some ⟨2024, 7, 2⟩) (some ⟨2024, 7, 2⟩) =
      ⟨[.dateKey ⟨2024, 7, 2⟩], [1]⟩ ∧
    getCombinedAttachmentsTimeline [tueConvo] none Period.week none none =
      ⟨[.dateKey ⟨2024, 7, 1⟩], [1]⟩ := by
  refine ⟨by decide, by decide, by decide, by decide, by decide, by decide⟩

/-! ### C5: reactions whose parent message has not been seen -/

/-- A reaction whose `assoc_guid` points at `"g1"`. -/
def orphanReact : ReactRec :=
  ⟨"r1", some "B", ⟨⟨2024, 7, 1⟩, 10, 1⟩, some ("Loved " ++ "hi"), "g1"⟩

/-- The message with guid `"g1"`. -/
def parentMsg : MsgRec :=
  ⟨"g1", some "A", ⟨⟨2024, 7, 1⟩, 10, 0⟩, some "hi", false, false⟩

/-- Claim C5, counterexample: the reaction arrives before its parent; the
parent appears right afterwards, yet the conversation never attaches the
reaction to it (there is no pending table): the parent's reaction list
stays empty and the reaction is merely counted as skipped. -/
theorem reactionPending_counterexample :
    (buildConversation [.react orphanReact, .msg parentMsg]).messages =
      [("g1", (parentMsg, []))] ∧
    (buildConversation [.react orphanReact, .msg parentMsg]).skippedCount = 1 := by
  refine ⟨by decide, by decide⟩

/-- Claim C5, amended: conversation construction never fails and retains
every input item in the thread in order, reactions included, whether or
not their parent exists; a reaction is attached to its parent if and
only if the parent was constructed *earlier* — a reaction seen before
its parent is counted in `skipped_count`, stays in the `reactions` index
and the thread, but is never attached retroactively. -/
theorem reactionPending_amended :
    (∀ items : List RawItem,
      (buildConversation items).thread = items.map RawItem.toEvent) ∧
    (buildConversation [.msg parentMsg, .react orphanReact]).messages =
      [("g1", (parentMsg, [orphanReact]))] ∧
    (buildConversation [.msg parentMsg, .react orphanReact]).skippedCount = 0 ∧
    (buildConversation [.react orphanReact, .msg parentMsg]).reactions =
      [("r1", orphanReact)] ∧
    (buildConversation [.react orphanReact, .msg parentMsg]).thread =
      [Event.reaction orphanReact, Event.message parentMsg] := by
  have hstep : ∀ (st : ConversationBuild) (it : RawItem),
      (conversationStep st it).thread = st.thread ++ [it.toEvent] := by
    intro st it
    cases it with
    | msg m => rfl
    | react r =>
      simp only [conversationStep, RawItem.toEvent]
      split <;> rfl
  have hthread : ∀ (items : List RawItem) (st : ConversationBuild),
      (items.foldl conversationStep st).thread = st.thread ++ items.map RawItem.toEvent := by
    intro items
    induction items with
    | nil => intro st; simp
    | cons hd tl ih =>
      intro st
      simp only [List.foldl_cons, List.map_cons]
      rw [ih, hstep]
      simp
  refine ⟨?_, by decide, by decide, by decide, by decide⟩
  intro items
  have := hthread items ⟨[], [], [], 0⟩
  simpa [buildConversation] using this

/-! ### C8: word counting -/

theorem pySplitAux_sound (cs : List Char) :
    ∀ cur : List Char, (∀ c ∈ cur, c.isWhitespace = false) →
      ∀ w ∈ pySplitAux cs cur, w ≠ "" ∧ ∀ c ∈ w.toList, c.isWhitespace = false := by
  induction cs with
  | nil =>
    intro cur hcur w hw
    cases cur with
    | nil => simp [pySplitAux] at hw
    | cons a as =>
      simp only [pySplitAux, List.mem_singleton] at hw
      subst hw
      constructor
      · intro hcon
        have := congrArg String.data hcon
        simp at this
      · intro c hc
        have hc2 : c ∈ (a :: as).reverse := by
          simpa [String.toList] using hc
        exact hcur c (List.mem_reverse.mp hc2)
  | cons a as ih =>
    intro cur hcur w hw
    by_cases ha : a.isWhitespace = true
    · cases cur with
      | nil =>
        simp only [pySplitAux, ha, if_true] at hw
        exact ih [] (by simp) w hw
      | cons b bs =>
        simp only [pySplitAux, ha, if_true] at hw
        rcases List.mem_cons.mp hw with hw2 | hw2
        · subst hw2
          constructor
          · intro hcon
            have := congrArg String.data hcon
            simp at this
          · intro c hc
            have hc2 : c ∈ (b :: bs).reverse := by
              simpa [String.toList] using hc
            exact hcur c (List.mem_reverse.mp hc2)
        · exact ih [] (by simp) w hw2
    · have ha2 : a.isWhitespace = false := by
        revert ha; cases a.isWhitespace <;> simp
      simp only [pySplitAux, ha2, Bool.false_eq_true, if_false] at hw
      refine ih (a :: cur) ?_ w hw
      intro c hc
      rcases List.mem_cons.mp hc with hc | hc
      · exact hc ▸ ha2
      · exact hcur c hc

theorem dropWhile_of_forall_false {l : List Char}
    (h : ∀ c ∈ l, c.isWhitespace = false) :
    l.dropWhile Char.isWhitespace = l := by
  cases l with
  | nil => rfl
  | cons a as =>
    have := h a (by simp)
    simp [List.dropWhile_cons, this]

theorem pyStrip_of_no_whitespace (w : String)
    (hws : ∀ c ∈ w.toList, c.isWhitespace = false) : pyStrip w = w := by
  unfold pyStrip
  rw [dropWhile_of_forall_false hws]
  rw [dropWhile_of_forall_false (fun c hc => hws c (by simpa using hc))]
  rw [List.reverse_reverse]
  cases w
  simp [String.toList]

theorem wordsOf_eq_pySplit (t : String) : wordsOf t = pySplit t := by
  unfold wordsOf
  apply List.filter_eq_self.mpr
  intro w hw
  obtain ⟨hne, hws⟩ := pySplitAux_sound t.toList [] (by simp) w hw
  rw [pyStrip_of_no_whitespace w hws]
  simpa using hne

theorem pySplit_whitespace_only (s : String)
    (h : ∀ c ∈ s.toList, c.isWhitespace = true) : pySplit s = [] := by
  unfold pySplit
  have haux : ∀ cs : List Char, (∀ c ∈ cs, c.isWhitespace = true) →
      pySplitAux cs [] = [] := by
    intro cs
    induction cs with
    | nil => intro _; rfl
    | cons a as ih =>
      intro hcs
      have ha := hcs a (by simp)
      simp only [pySplitAux, ha, if_true]
      exact ih (fun c hc => hcs c (by simp [hc]))
  exact haux s.toList h

/-- Claim C8: for a non-reaction message, the word count is the number of
whitespace-delimited non-empty tokens of its text (the `w.strip()`
filter never removes anything); a message whose text is absent, empty or
tokenless (e.g. whitespace-only, which splits to no tokens) leaves every
word-count structure untouched — not even a zero entry; a message with
at least one word appends its count to the per-bucket list and adds it
to the per-bucket running total (per sender, by datetime bucket and by
hour), and bumps the base tracker. -/
theorem wordCount_record_spec :
    (∀ t : String, wordsOf t = pySplit t) ∧
    (∀ (t w : String), w ∈ pySplit t → w ≠ "") ∧
    (∀ s : String, (∀ c ∈ s.toList, c.isWhitespace = true) → pySplit s = []) ∧
    (∀ (st : WordCountStat) (m : MsgRec),
      (m.text = none ∨ ∃ t, m.text = some t ∧ (wordsOf t).length = 0) →
        (WordCountStat.record st (.message m)).wordsPerMessageTimeline =
            st.wordsPerMessageTimeline ∧
        (WordCountStat.record st (.message m)).wordsPerMessageByHour =
            st.wordsPerMessageByHour ∧
        (WordCountStat.record st (.message m)).totalWordsTimeline =
            st.totalWordsTimeline ∧
        (WordCountStat.record st (.message m)).totalWordsByHour =
            st.totalWordsByHour ∧
        (WordCountStat.record st (.message m)).base = st.base) ∧
    (∀ (st : WordCountStat) (m : MsgRec) (t : String), m.text = some t →
      0 < (wordsOf t).length →
        lookup2D (WordCountStat.record st (.message m)).wordsPerMessageTimeline
            m.sender (combineKey m.timestamp.date m.timestamp.hour) [] =
          lookup2D st.wordsPerMessageTimeline m.sender
            (combineKey m.timestamp.date m.timestamp.hour) [] ++ [(wordsOf t).length] ∧
        lookup2D (WordCountStat.record st (.message m)).wordsPerMessageByHour
            m.sender m.timestamp.hour [] =
          lookup2D st.wordsPerMessageByHour m.sender m.timestamp.hour [] ++
            [(wordsOf t).length] ∧
        lookup2D (WordCountStat.record st (.message m)).totalWordsTimeline
            m.sender (combineKey m.timestamp.date m.timestamp.hour) 0 =
          lookup2D st.totalWordsTimeline m.sender
            (combineKey m.timestamp.date m.timestamp.hour) 0 + (wordsOf t).length ∧
        lookup2D (WordCountStat.record st (.message m)).totalWordsByHour
            m.sender m.timestamp.hour 0 =
          lookup2D st.totalWordsByHour m.sender m.timestamp.hour 0 +
            (wordsOf t).length ∧
        lookup2D (WordCountStat.record st (.message m)).base.timelineBySender
            m.sender (combineKey m.timestamp.date m.timestamp.hour) 0 =
          lookup2D st.base.timelineBySender m.sender
            (combineKey m.timestamp.date m.timestamp.hour) 0 + 1) := by
  refine ⟨wordsOf_eq_pySplit,
    fun t w hw => (pySplitAux_sound t.toList [] (by simp) w hw).1,
    pySplit_whitespace_only, ?_, ?_⟩
  · intro st m hm
    rcases hm with hm | ⟨t, hm, ht⟩
    · simp only [WordCountStat.record, hm]
      exact ⟨by trivial, by trivial, by trivial, by trivial, by trivial⟩
    · simp only [WordCountStat.record, hm]
      by_cases he : t = ""
      · rw [if_pos he]
        exact ⟨by trivial, by trivial, by trivial, by trivial, by trivial⟩
      · rw [if_neg he, if_pos ht]
        exact ⟨by trivial, by trivial, by trivial, by trivial, by trivial⟩
  · intro st m t hm ht
    have he : t ≠ "" := by
      intro hcon
      subst hcon
      simp [wordsOf, pySplit, pySplitAux] at ht
    simp only [WordCountStat.record, hm]
    rw [if_neg he, if_neg (by omega)]
    refine ⟨?_, ?_, ?_, ?_, ?_⟩
    · rw [lookup2D_upsert2_self]
    · rw [lookup2D_upsert2_self]
    · rw [lookup2D_upsert2_self]
    · rw [lookup2D_upsert2_self]
    · simp only [BaseStat.recordBase]
      rw [lookup2D_upsert2_self]

/-- A message with the text `"hi there"`. -/
def twoWordMsg : MsgRec :=
  ⟨"g1", some "A", ⟨⟨2024, 7, 1⟩, 10, 0⟩, some "hi there", false, false⟩

/-- A message whose text is whitespace only. -/
def blankMsg : MsgRec :=
  ⟨"g2", some "A", ⟨⟨2024, 7, 1⟩, 10, 1⟩, some "   ", false, false⟩

/-- Witness for `wordCount_record_spec`: `"hi there"` records the count
2; `"   "` (whitespace only) leaves every word-count structure of the
empty tracker untouched. -/
theorem wordCount_record_spec_witness :
    lookup2D (WordCountStat.record WordCountStat.empty
        (.message twoWordMsg)).wordsPerMessageTimeline
      (some "A") (combineKey ⟨2024, 7, 1⟩ 10) [] = [2] ∧
    (WordCountStat.record WordCountStat.empty (.message blankMsg)).totalWordsTimeline
      = [] ∧
    (WordCountStat.record WordCountStat.empty (.message blankMsg)).base =
      BaseStat.empty := by
  refine ⟨?_, ?_, ?_⟩
  · have h := (wordCount_record_spec.2.2.2.2 WordCountStat.empty twoWordMsg
      "hi there" rfl (by decide)).1
    exact h.trans (by decide)
  · exact (wordCount_record_spec.2.2.2.1 WordCountStat.empty blankMsg
      (Or.inr ⟨"   ", rfl, by decide⟩)).2.2.1
  · exact (wordCount_record_spec.2.2.2.1 WordCountStat.empty blankMsg
      (Or.inr ⟨"   ", rfl, by decide⟩)).2.2.2.2

/-! ### C6: sent/received ratio -/

/-- The spec's "received": the sum of `sent_timeline` over all senders
other than the queried one, within one bucket. -/
def sumOverOtherSenders (stl : List (Option String × List (PyDateTime × Nat)))
    (x : Option String) (p : Period) (dk : PeriodKey) : Nat :=
  stl.foldr
    (fun pr a =>
      if pr.1 ≠ x then sumAtKey (fun dt => periodKeyOf dt p) pr.2 dk + a else a) 0

theorem receivedDataOf_sumAtKey (p : Period) (dk : PeriodKey)
    (stl : List (Option String × List (PyDateTime × Nat))) (x : Option String) :
    ∀ acc : List (PyDateTime × Nat),
      sumAtKey (fun dt => periodKeyOf dt p)
          (stl.foldl (fun acc pr => if pr.1 ≠ x then foldAdd id pr.2 acc else acc) acc) dk =
        sumAtKey (fun dt => periodKeyOf dt p) acc dk + sumOverOtherSenders stl x p dk := by
  induction stl with
  | nil => intro acc; simp [sumOverOtherSenders]
  | cons hd tl ih =>
    intro acc
    obtain ⟨s0, tl0⟩ := hd
    simp only [List.foldl_cons, sumOverOtherSenders, List.foldr_cons]
    by_cases h0 : s0 ≠ x
    · rw [if_pos h0, if_pos h0]
      rw [ih (foldAdd id tl0 acc), sumAtKey_foldAdd]
      simp only [sumOverOtherSenders]
      omega
    · rw [if_neg h0, if_neg h0]
      exact ih acc

theorem getD_map_lt {α β : Type} (f : α → β) (l : List α) (i : Nat)
    (hi : i < l.length) (d : β) (d2 : α) :
    (l.map f).getD i d = f (l.getD i d2) := by
  induction l generalizing i with
  | nil => simp at hi
  | cons a as ih =>
    cases i with
    | zero => simp
    | succ n =>
      simp only [List.map_cons, List.getD_cons_succ]
      exact ih n (by simpa using hi)

theorem ratioOut_fields (st : DoubleTextStat) (x : Option String) (p : Period)
    (hc : containsKey st.sentTimeline x = true) :
    st.getSentReceivedRatioTimeline x p =
      ⟨sortedKeyUnion (aggregateCounts (lookupD st.sentTimeline x []) p)
          (aggregateCounts (receivedDataOf st.sentTimeline x) p),
       (sortedKeyUnion (aggregateCounts (lookupD st.sentTimeline x []) p)
          (aggregateCounts (receivedDataOf st.sentTimeline x) p)).map
         (fun dk => (ratioRow (aggregateCounts (lookupD st.sentTimeline x []) p)
            (aggregateCounts (receivedDataOf st.sentTimeline x) p) dk).1),
       (sortedKeyUnion (aggregateCounts (lookupD st.sentTimeline x []) p)
          (aggregateCounts (receivedDataOf st.sentTimeline x) p)).map
         (fun dk => (ratioRow (aggregateCounts (lookupD st.sentTimeline x []) p)
            (aggregateCounts (receivedDataOf st.sentTimeline x) p) dk).2.1),
       (sortedKeyUnion (aggregateCounts (lookupD st.sentTimeline x []) p)
          (aggregateCounts (receivedDataOf st.sentTimeline x) p)).map
         (fun dk => (ratioRow (aggregateCounts (lookupD st.sentTimeline x []) p)
            (aggregateCounts (receivedDataOf st.sentTimeline x) p) dk).2.2)⟩ := by
  unfold DoubleTextStat.getSentReceivedRatioTimeline
  rw [if_neg (by simp [hc])]
  simp only [List.map_map]
  rfl

/-- Claim C6: in every bucket of `get_sent_received_ratio_timeline` the
reported `sent` is the queried sender's own aggregated count, `received`
is the sum of `sent_timeline` over all *other* senders in the same
bucket, and the ratio equals `sent / (sent + received)` whenever the
total is positive, is exactly `1` for a bucket holding only the queried
sender's messages, and is the neutral `0.5` (never `NaN`, never
dropped) whenever the total in that bucket is zero. -/
theorem sentReceivedRatio_spec (st : DoubleTextStat) (x : Option String)
    (p : Period) (i : Nat)
    (hi : i < (st.getSentReceivedRatioTimeline x p).dates.length) :
    (st.getSentReceivedRatioTimeline x p).sentCounts.getD i 0 =
      sumAtKey (fun dt => periodKeyOf dt p) (lookupD st.sentTimeline x [])
        ((st.getSentReceivedRatioTimeline x p).dates.getD i (.dateKey ⟨1, 1, 1⟩)) ∧
    (st.getSentReceivedRatioTimeline x p).receivedCounts.getD i 0 =
      sumOverOtherSenders st.sentTimeline x p
        ((st.getSentReceivedRatioTimeline x p).dates.getD i (.dateKey ⟨1, 1, 1⟩)) ∧
    ((st.getSentReceivedRatioTimeline x p).sentCounts.getD i 0 +
        (st.getSentReceivedRatioTimeline x p).receivedCounts.getD i 0 = 0 →
      (st.getSentReceivedRatioTimeline x p).ratioVals.getD i 0 = 1 / 2) ∧
    (0 < (st.getSentReceivedRatioTimeline x p).sentCounts.getD i 0 +
        (st.getSentReceivedRatioTimeline x p).receivedCounts.getD i 0 →
      (st.getSentReceivedRatioTimeline x p).ratioVals.getD i 0 =
        ((st.getSentReceivedRatioTimeline x p).sentCounts.getD i 0 : ℚ) /
          (((st.getSentReceivedRatioTimeline x p).sentCounts.getD i 0 : ℚ) +
            ((st.getSentReceivedRatioTimeline x p).receivedCounts.getD i 0 : ℚ))) ∧
    ((st.getSentReceivedRatioTimeline x p).receivedCounts.getD i 0 = 0 →
      0 < (st.getSentReceivedRatioTimeline x p).sentCounts.getD i 0 →
      (st.getSentReceivedRatioTimeline x p).ratioVals.getD i 0 = 1) := by
  by_cases hc : containsKey st.sentTimeline x = true
  · rw [ratioOut_fields st x p hc] at hi ⊢
    simp only at hi ⊢
    set sentAgg := aggregateCounts (lookupD st.sentTimeline x []) p with hsa
    set receivedAgg := aggregateCounts (receivedDataOf st.sentTimeline x) p with hra
    set allDates := sortedKeyUnion sentAgg receivedAgg with had
    have hlen : i < allDates.length := hi
    rw [getD_map_lt _ allDates i hlen _ (.dateKey ⟨1, 1, 1⟩),
      getD_map_lt _ allDates i hlen _ (.dateKey ⟨1, 1, 1⟩),
      getD_map_lt _ allDates i hlen _ (.dateKey ⟨1, 1, 1⟩)]
    set dk := allDates.getD i (.dateKey ⟨1, 1, 1⟩) with hdk
    have hsent : (ratioRow sentAgg receivedAgg dk).2.1 = lookupD sentAgg dk 0 := rfl
    have hrecv : (ratioRow sentAgg receivedAgg dk).2.2 = lookupD receivedAgg dk 0 := rfl
    have hsentval : lookupD sentAgg dk 0 =
        sumAtKey (fun dt => periodKeyOf dt p) (lookupD st.sentTimeline x []) dk := by
      rw [hsa]
      unfold aggregateCounts
      rw [lookupD_foldAdd]
      simp [lookupD]
    have hrecvval : lookupD receivedAgg dk 0 = sumOverOtherSenders st.sentTimeline x p dk := by
      rw [hra]
      unfold aggregateCounts
      rw [lookupD_foldAdd]
      simp only [lookupD]
      unfold receivedDataOf
      rw [receivedDataOf_sumAtKey p dk st.sentTimeline x []]
      simp [sumAtKey]
    refine ⟨by rw [hsent, hsentval], by rw [hrecv, hrecvval], ?_, ?_, ?_⟩
    · intro h0
      rw [hsent, hrecv] at h0
      show (ratioRow sentAgg receivedAgg dk).1 = 1 / 2
      unfold ratioRow
      simp only
      rw [if_neg (by omega)]
    · intro h0
      rw [hsent, hrecv] at h0
      show (ratioRow sentAgg receivedAgg dk).1 = _
      unfold ratioRow
      simp only
      rw [if_pos (by omega)]
      push_cast
      ring
    · intro h0 h1
      rw [hrecv] at h0
      rw [hsent] at h1
      show (ratioRow sentAgg receivedAgg dk).1 = 1
      unfold ratioRow
      simp only
      rw [if_pos (by omega), h0, Nat.add_zero]
      have hne : ((lookupD sentAgg dk 0 : ℕ) : ℚ) ≠ 0 :=
        Nat.cast_ne_zero.mpr (by omega)
      exact div_self hne
  · exfalso
    unfold DoubleTextStat.getSentReceivedRatioTimeline at hi
    rw [if_pos (by simpa using hc)] at hi
    simp at hi

/-- Witness for `sentReceivedRatio_spec`: after the C1 stream (A sent 3,
B sent 1 in the same week bucket), querying A yields sent 3, received 1
and ratio 3/4. -/
theorem sentReceivedRatio_spec_witness :
    (streakRun.getSentReceivedRatioTimeline (some "A") Period.week).sentCounts.getD 0 0
        = 3 ∧
    (streakRun.getSentReceivedRatioTimeline (some "A") Period.week).receivedCounts.getD 0 0
        = 1 ∧
    (streakRun.getSentReceivedRatioTimeline (some "A") Period.week).ratioVals.getD 0 0
        = 3 / 4 := by
  have h := sentReceivedRatio_spec streakRun (some "A") Period.week 0 (by decide)
  have hs : (streakRun.getSentReceivedRatioTimeline (some "A")
      Period.week).sentCounts.getD 0 0 = 3 := by decide
  have hr : (streakRun.getSentReceivedRatioTimeline (some "A")
      Period.week).receivedCounts.getD 0 0 = 1 := by decide
  refine ⟨hs, hr, ?_⟩
  have h4 := h.2.2.2.1 (by rw [hs, hr]; omega)
  rw [h4, hs, hr]
  norm_num

/-! ### C3: combined messages timeline under a date filter -/

theorem dailyRebucketLoop_eq (p : Period) (s e : Option PyDate)
    (rows : List (PeriodKey × Nat)) :
    ∀ acc : List (PeriodKey × Nat),
      dailyRebucketLoop p s e acc rows =
        foldAdd (fun dk => periodKeyOf (combineKey (dateOfKey dk) 0) p)
          (rows.filter (fun pr => inDateRange pr.1 s e)) acc := by
  induction rows with
  | nil => intro acc; rfl
  | cons pr tl ih =>
    intro acc
    have hstep : dailyRebucketLoop p s e acc (pr :: tl) =
        dailyRebucketLoop p s e
          (if ! inDateRange pr.1 s e then acc
           else upsert acc (periodKeyOf (combineKey (dateOfKey pr.1) 0) p) (· + pr.2) 0)
          tl := rfl
    by_cases hin : inDateRange pr.1 s e = true
    · rw [hstep, if_neg (by simp [hin])]
      rw [show (pr :: tl).filter (fun q => inDateRange q.1 s e) =
          pr :: tl.filter (fun q => inDateRange q.1 s e) from by
        simp [List.filter_cons, hin]]
      exact ih _
    · have hin2 : inDateRange pr.1 s e = false := by
        revert hin; cases inDateRange pr.1 s e <;> simp
      rw [hstep, if_pos (by simp [hin2])]
      rw [show (pr :: tl).filter (fun q => inDateRange q.1 s e) =
          tl.filter (fun q => inDateRange q.1 s e) from by
        simp [List.filter_cons, hin2]]
      exact ih acc

/-- The spec's rule for a filtered coarse query (§4.7): request each
conversation at daily resolution, keep exactly the in-range days,
re-bucket them at the requested granularity, and sum over conversations.
This definition follows the spec's words; the theorem below proves the
code's aggregated dict refines it. -/
def specCombinedMessagesCount (convos : List ConversationModel)
    (sender : Option String) (p : Period) (s e : Option PyDate)
    (k : PeriodKey) : Nat :=
  (convos.map (fun convo =>
    sumAtKey (fun dk => periodKeyOf (combineKey (dateOfKey dk) 0) p)
      (((convo.messageStats.getTimeline (resolveSenderKey convo sender)
          Period.day).dates.zip
        (convo.messageStats.getTimeline (resolveSenderKey convo sender)
          Period.day).counts).filter
        (fun pr => inDateRange pr.1 s e)) k)).sum

/-- The C3 example conversation: 3 messages on Monday 2024-07-01 and 4
on Tuesday 2024-07-02. -/
def monTueMsg (d : PyDate) (minute : Nat) : Event :=
  Event.message ⟨"g", some "A", ⟨d, 10, minute⟩, some "hi", false, false⟩

def monTueConvo : ConversationModel :=
  { senders := [(some "A", ⟨"Alice", 7, 0, 0, 0⟩)]
    messageStats :=
      ((List.range 3).map (monTueMsg ⟨2024, 7, 1⟩) ++
        (List.range 4).map (monTueMsg ⟨2024, 7, 2⟩)).foldl
        MessageStatistic.record BaseStat.empty
    attachmentStats := BaseStat.empty
    doubleTextStats := DoubleTextStat.empty }

/-- Claim C3: with a date filter and a granularity coarser than daily,
`get_combined_messages_timeline` pulls each conversation at daily
resolution, keeps exactly the days inside the inclusive range, and sums
the survivors into the coarse buckets; on daily counts Monday = 3,
Tuesday = 4 and the filter `[Tuesday, Tuesday]`, the weekly result is
the single bucket of that week's Monday with count 4 (not 7, not
empty). -/
theorem combinedMessagesTimeline_spec :
    (∀ (convos : List ConversationModel) (sender : Option String) (p : Period)
        (s e : Option PyDate) (k : PeriodKey),
      p ≠ Period.day → (s.isSome || e.isSome) = true →
        lookupD (combinedMessagesAgg convos sender p s e) k 0 =
          specCombinedMessagesCount convos sender p s e k) ∧
    getCombinedMessagesTimeline [monTueConvo] none Period.week
        (some ⟨2024, 7, 2⟩) (some ⟨2024, 7, 2⟩) =
      ⟨[.dateKey ⟨2024, 7, 1⟩], [4]⟩ ∧
    getCombinedMessagesTimeline [monTueConvo] none Period.week none none =
      ⟨[.dateKey ⟨2024, 7, 1⟩], [7]⟩ := by
  refine ⟨?_, by decide, by decide⟩
  intro convos sender p s e k hp hrange
  have hcond : ((s.isSome || e.isSome) && decide (p ≠ Period.day)) = true := by
    rw [hrange]
    simp [hp]
  have main : ∀ (cl : List ConversationModel) (acc : List (PeriodKey × Nat)),
      lookupD (cl.foldl (combinedMessagesStep sender p s e) acc) k 0 =
        lookupD acc k 0 + specCombinedMessagesCount cl sender p s e k := by
    intro cl
    induction cl with
    | nil => intro acc; simp [specCombinedMessagesCount]
    | cons c cs ih =>
      intro acc
      simp only [List.foldl_cons]
      rw [ih]
      have hstep : combinedMessagesStep sender p s e acc c =
          foldAdd (fun dk => periodKeyOf (combineKey (dateOfKey dk) 0) p)
            (((c.messageStats.getTimeline (resolveSenderKey c sender)
                Period.day).dates.zip
              (c.messageStats.getTimeline (resolveSenderKey c sender)
                Period.day).counts).filter
              (fun pr => inDateRange pr.1 s e)) acc := by
        unfold combinedMessagesStep
        rw [if_pos hcond]
        exact dailyRebucketLoop_eq p s e _ acc
      rw [hstep, lookupD_foldAdd]
      simp only [specCombinedMessagesCount, List.map_cons, List.sum_cons]
      omega
  have h := main convos []
  unfold combinedMessagesAgg
  rw [h]
  simp [lookupD]

/-- Witness for `combinedMessagesTimeline_spec`: the refinement clause
applied at the Monday/Tuesday example with the `[Tuesday, Tuesday]`
filter and weekly granularity. -/
theorem combinedMessagesTimeline_spec_witness :
    lookupD (combinedMessagesAgg [monTueConvo] none Period.week
        (some ⟨2024, 7, 2⟩) (some ⟨2024, 7, 2⟩)) (.dateKey ⟨2024, 7, 1⟩) 0 =
      specCombinedMessagesCount [monTueConvo] none Period.week
        (some ⟨2024, 7, 2⟩) (some ⟨2024, 7, 2⟩) (.dateKey ⟨2024, 7, 1⟩) ∧
    specCombinedMessagesCount [monTueConvo] none Period.week
        (some ⟨2024, 7, 2⟩) (some ⟨2024, 7, 2⟩) (.dateKey ⟨2024, 7, 1⟩) = 4 :=
  ⟨combinedMessagesTimeline_spec.1 [monTueConvo] none Period.week
      (some ⟨2024, 7, 2⟩) (some ⟨2024, 7, 2⟩) (.dateKey ⟨2024, 7, 1⟩)
      (by decide) (by decide),
   by decide⟩

/-! ### C10: timezone normalization on event construction -/

/-- Claim C10: every constructed event's timestamp is the
America/New_York rendering of the instant its ISO-8601 input denotes
(computed from the instant alone), so two input records denoting the
same instant with different carried offsets construct identical
timestamps — hence identical bucket keys for every granularity and
identical hours.  The two closing conjuncts pin the conversion itself
on concrete instants: 16:00 UTC on 2024-07-01 is 12:00 New York (EDT)
and 16:00 UTC on 2024-01-15 is 11:00 New York (EST). -/
theorem timestampNY_spec :
    (∀ rec : RawEvent, iMessageTimestamp rec = astimezoneNY rec.timestampISO) ∧
    (∀ t1 t2 : ZonedTimestamp, t1.instant = t2.instant →
      astimezoneNY t1 = astimezoneNY t2) ∧
    (∀ r1 r2 : RawEvent,
      r1.timestampISO.instant = r2.timestampISO.instant →
        iMessageTimestamp r1 = iMessageTimestamp r2 ∧
        (∀ p : Period,
          periodKeyOf (iMessageTimestamp r1) p = periodKeyOf (iMessageTimestamp r2) p) ∧
        (iMessageTimestamp r1).hour = (iMessageTimestamp r2).hour) ∧
    astimezoneNY ⟨⟨⟨2024, 7, 1⟩, 16, 0⟩, 0⟩ = ⟨⟨2024, 7, 1⟩, 12, 0⟩ ∧
    astimezoneNY ⟨⟨⟨2024, 1, 15⟩, 16, 0⟩, 0⟩ = ⟨⟨2024, 1, 15⟩, 11, 0⟩ := by
  have hinv : ∀ t1 t2 : ZonedTimestamp, t1.instant = t2.instant →
      astimezoneNY t1 = astimezoneNY t2 := by
    intro t1 t2 h
    unfold astimezoneNY
    rw [h]
  refine ⟨fun rec => rfl, hinv, ?_, by decide, by decide⟩
  intro r1 r2 h
  have he : iMessageTimestamp r1 = iMessageTimestamp r2 :=
    hinv r1.timestampISO r2.timestampISO h
  exact ⟨he, fun p => by rw [he], by rw [he]⟩

/-- Witness for `timestampNY_spec`: `2024-07-01T16:00+00:00` and
`2024-07-01T12:00-04:00` denote the same instant, and the events built
from them carry identical timestamps, week keys and hours. -/
theorem timestampNY_spec_witness :
    iMessageTimestamp ⟨"g1", some "A", ⟨⟨⟨2024, 7, 1⟩, 16, 0⟩, 0⟩, none, false⟩ =
      iMessageTimestamp ⟨"g2", some "A", ⟨⟨⟨2024, 7, 1⟩, 12, 0⟩, -240⟩, none, false⟩ ∧
    periodKeyOf (iMessageTimestamp
        ⟨"g1", some "A", ⟨⟨⟨2024, 7, 1⟩, 16, 0⟩, 0⟩, none, false⟩) Period.week =
      periodKeyOf (iMessageTimestamp
        ⟨"g2", some "A", ⟨⟨⟨2024, 7, 1⟩, 12, 0⟩, -240⟩, none, false⟩) Period.week ∧
    (iMessageTimestamp ⟨"g1", some "A", ⟨⟨⟨2024, 7, 1⟩, 16, 0⟩, 0⟩, none, false⟩).hour =
      (iMessageTimestamp
        ⟨"g2", some "A", ⟨⟨⟨2024, 7, 1⟩, 12, 0⟩, -240⟩, none, false⟩).hour := by
  have h := timestampNY_spec.2.2.1
    ⟨"g1", some "A", ⟨⟨⟨2024, 7, 1⟩, 16, 0⟩, 0⟩, none, false⟩
    ⟨"g2", some "A", ⟨⟨⟨2024, 7, 1⟩, 12, 0⟩, -240⟩, none, false⟩ (by decide)
  exact ⟨h.1, h.2.1 Period.week, h.2.2⟩
